import Mathlib

/-!
Verification of the AICryptoSense news aggregation and enrichment pipeline.

The definitions below are a shallow embedding of the pipeline's source:
the service layer (caches, rate-limit configuration, provider adapters,
aggregator `fetchCryptoNews`, `analyzeSentiment`, `fetchMarketData`) and the
consumer-side enrichment and snapshot reconciliation in `App.tsx`.
JavaScript epoch-millisecond timestamps are embedded as `Int`, epoch-second
publication times as `Int`, and `Math.floor(Math.random() * n)` draws as a
`Nat` parameter bounded by `n`.  Asynchronous effects (HTTP calls, timers)
are embedded by passing each call's upstream outcome in explicitly; a
rejected promise is an `Except.error`.
-/

/-- The canonical news item shape produced by the provider adapters
(the `NewsItem` interface of the repository's type declarations, restricted
to the fields every adapter populates; the optional enrichment fields live
in `EnrichedNewsItem` below). -/
structure NewsItem where
  id : String
  title : String
  url : String
  source : String
  published_on : Int
  imageurl : String
  body : String
deriving DecidableEq

/-- Impact levels derived by the enrichment step in `App.tsx`. -/
inductive Impact where
  | High
  | Medium
  | Low
deriving DecidableEq

/-- A news item after the `App.tsx` enrichment spread
`{ ...item, sentiment, reliability, impact }`. -/
structure EnrichedNewsItem where
  id : String
  title : String
  url : String
  source : String
  published_on : Int
  imageurl : String
  body : String
  sentiment : String
  reliability : Nat
  impact : Impact
deriving DecidableEq

/-- Ordering used by `.sort((a, b) => b.published_on - a.published_on)`:
`a` may precede `b` exactly when `b.published_on ≤ a.published_on`
(descending by publication time). -/
def newsDescLe (a b : NewsItem) : Prop := b.published_on ≤ a.published_on

instance : DecidableRel newsDescLe :=
  fun a b => inferInstanceAs (Decidable (b.published_on ≤ a.published_on))

instance : IsTotal NewsItem newsDescLe :=
  ⟨fun a b => le_total b.published_on a.published_on⟩

instance : IsTrans NewsItem newsDescLe :=
  ⟨fun _ _ _ hab hbc => le_trans hbc hab⟩

/-- Same descending ordering on enriched items (the `setNews` sort in
`App.tsx`). -/
def enrichedDescLe (a b : EnrichedNewsItem) : Prop := b.published_on ≤ a.published_on

instance : DecidableRel enrichedDescLe :=
  fun a b => inferInstanceAs (Decidable (b.published_on ≤ a.published_on))

instance : IsTotal EnrichedNewsItem enrichedDescLe :=
  ⟨fun a b => le_total b.published_on a.published_on⟩

instance : IsTrans EnrichedNewsItem enrichedDescLe :=
  ⟨fun _ _ _ hab hbc => le_trans hbc hab⟩

/-- `[...cryptoCompareNews, ...cryptoPanicNews].sort((a, b) => b.published_on - a.published_on)`:
the aggregator's merge step.  JavaScript's `Array.prototype.sort` is a stable
sort; it is embedded as a stable insertion sort under `newsDescLe`. -/
def mergeAndSortNews (cryptoCompareNews cryptoPanicNews : List NewsItem) : List NewsItem :=
  List.insertionSort newsDescLe (cryptoCompareNews ++ cryptoPanicNews)

/-- The `uniqueNews.sort((a, b) => b.published_on - a.published_on)` step of
`setNews` in `App.tsx`. -/
def sortEnrichedDesc (l : List EnrichedNewsItem) : List EnrichedNewsItem :=
  List.insertionSort enrichedDescLe l

/-! ## Provider adapters (service layer, `fetchCryptoCompareNews` / `fetchCryptoPanicNews`) -/

/-- One upstream HTTP exchange as the adapter observes it.
`netError` is any exception raised during the call (network error, timeout,
JSON parse error); `httpError` is a response with `response.ok` false (which
`validateResponse` converts into a thrown error); `ok body` is a successful,
parsed response body. -/
inductive UpstreamFetch (β : Type) where
  | netError
  | httpError (status : Nat)
  | ok (body : β)

/-- Raw CryptoCompare payload item (the fields the adapter reads). -/
structure CCRawItem where
  id : String
  title : String
  url : String
  source : String
  published_on : Int
  imageurl : String
  body : String
deriving DecidableEq

/-- Raw CryptoPanic payload item (the fields the adapter reads).
`publishedAtMs` is the epoch-millisecond value of
`new Date(item.published_at).getTime()` (date parsing is foreign code);
`imageUrl` embeds `item.metadata?.image?.url` (missing levels give `none`)
and `description` embeds `item.metadata?.description`. -/
structure CPRawItem where
  id : Option String
  title : String
  url : String
  sourceTitle : String
  publishedAtMs : Int
  imageUrl : Option String
  description : Option String
deriving DecidableEq

/-- Normalization of one CryptoCompare item. -/
def normalizeCryptoCompareItem (item : CCRawItem) : NewsItem :=
  { id := item.id
    title := item.title
    url := item.url
    source := ("CryptoCompare - ") ++ item.source
    published_on := item.published_on
    imageurl := item.imageurl
    body := item.body }

/-- Normalization of one CryptoPanic item.  `synthId` is the value of
`String(Date.now() + Math.random())` drawn for this item; the JavaScript
`item.id || synthId` also replaces an empty-string id (falsy). -/
def normalizeCryptoPanicItem (synthId : String) (item : CPRawItem) : NewsItem :=
  { id := match item.id with
          | some v => if v = ("") then synthId else v
          | none => synthId
    title := item.title
    url := item.url
    source := ("CryptoPanic - ") ++ item.sourceTitle
    published_on := item.publishedAtMs.fdiv 1000
    imageurl := (item.imageUrl).getD ("")
    body := (item.description).getD ("") }

/-- The body of the CryptoCompare adapter before its enclosing `try`/`catch`:
a non-ok response throws (via `validateResponse`), a body whose `Data` field
is missing or not an array yields `[]`, and a well-formed body is mapped
through normalization.  A body of `none` embeds the missing/non-array `Data`
field. -/
def fetchCryptoCompareNewsCore (u : UpstreamFetch (Option (List CCRawItem))) :
    Except String (List NewsItem) :=
  match u with
  | UpstreamFetch.netError => Except.error ("network or parse error")
  | UpstreamFetch.httpError status => Except.error (("CryptoCompare API error: ") ++ toString status)
  | UpstreamFetch.ok none => Except.ok []
  | UpstreamFetch.ok (some items) => Except.ok (items.map normalizeCryptoCompareItem)

/-- The CryptoCompare adapter: the enclosing `catch` logs and degrades any
thrown error to the empty list. -/
def fetchCryptoCompareNews (u : UpstreamFetch (Option (List CCRawItem))) : List NewsItem :=
  match fetchCryptoCompareNewsCore u with
  | Except.ok items => items
  | Except.error _ => []

/-- The body of the CryptoPanic adapter before its enclosing `try`/`catch`.
`synthIds i` is the synthesized-id draw for the item at index `i`. -/
def fetchCryptoPanicNewsCore (synthIds : Nat → String)
    (u : UpstreamFetch (Option (List CPRawItem))) : Except String (List NewsItem) :=
  match u with
  | UpstreamFetch.netError => Except.error ("network or parse error")
  | UpstreamFetch.httpError status => Except.error (("CryptoPanic API error: ") ++ toString status)
  | UpstreamFetch.ok none => Except.ok []
  | UpstreamFetch.ok (some items) =>
      Except.ok (items.mapIdx (fun i item => normalizeCryptoPanicItem (synthIds i) item))

/-- The CryptoPanic adapter: the enclosing `catch` logs and degrades any
thrown error to the empty list. -/
def fetchCryptoPanicNews (synthIds : Nat → String)
    (u : UpstreamFetch (Option (List CPRawItem))) : List NewsItem :=
  match fetchCryptoPanicNewsCore synthIds u with
  | Except.ok items => items
  | Except.error _ => []

/-- An upstream outcome on which an adapter contributes nothing: non-success
HTTP status, thrown exception, or a body missing the expected array field. -/
def upstreamDegraded {β : Type} : UpstreamFetch (Option β) → Bool
  | UpstreamFetch.ok (some _) => false
  | UpstreamFetch.ok none => true
  | UpstreamFetch.netError => true
  | UpstreamFetch.httpError _ => true

/-! ## Enrichment derivations (`App.tsx`) -/

/-- Case-insensitive regex alternation test `/(kw1|kw2|...)/i.test(title)`:
some keyword (given lowercase) occurs as a substring of the lowercased
title. -/
def titleMatches (title : String) (keywords : List String) : Bool :=
  keywords.any (fun kw => decide (kw.data <:+: (title.data.map Char.toLower)))

/-- `String.prototype.includes` (case-sensitive substring test). -/
def strIncludes (s sub : String) : Bool :=
  decide (sub.data <:+: s.data)

def urgentKeywords : List String := ["urgent", "breaking", "alert", "critical", "major"]

def marketKeywords : List String := ["price", "market", "crash", "surge", "soar", "plunge"]

/-- The impact derivation of `App.tsx` (`fetchNews`), as written in the
source: `sentimentStrength` is `0` for `NEUTRAL` and `1` otherwise, and the
branch structure follows the source's conditional chain. -/
def deriveImpact (title sentiment : String) : Impact :=
  let hasUrgentKeywords := titleMatches title urgentKeywords
  let hasPriceKeywords := titleMatches title marketKeywords
  let sentimentStrength : Nat := if sentiment = ("NEUTRAL") then 0 else 1
  if hasUrgentKeywords || (hasPriceKeywords && decide (sentimentStrength > 0)) then Impact.High
  else if hasPriceKeywords || decide (sentimentStrength > 0) then Impact.Medium
  else Impact.Low

/-- The impact rule exactly as the specification words it (for comparison
with `deriveImpact`): High if the title matches the urgency keywords OR
(matches the market keywords AND the sentiment is non-neutral); Medium if
the title matches the market keywords OR the sentiment is non-neutral; Low
otherwise. -/
def specImpact (title sentiment : String) : Impact :=
  if titleMatches title urgentKeywords = true ∨
     (titleMatches title marketKeywords = true ∧ sentiment ≠ ("NEUTRAL")) then Impact.High
  else if titleMatches title marketKeywords = true ∨ sentiment ≠ ("NEUTRAL") then Impact.Medium
  else Impact.Low

/-- The success-path reliability derivation of `App.tsx`: `baseDraw` embeds
`Math.floor(Math.random() * 20)` (so `baseDraw < 20` at every real call),
the base is `baseDraw + 75`, plus 5 for a body longer than 200 characters,
plus 5 when the source includes the trusted provider label, capped at 100. -/
def deriveReliability (baseDraw : Nat) (body source : String) : Nat :=
  let hasDetailedContent := decide (body.length > 200)
  let isVerifiedSource := strIncludes source ("CryptoCompare")
  let baseReliability := baseDraw + 75
  let afterContent := if hasDetailedContent then baseReliability + 5 else baseReliability
  let afterSource := if isVerifiedSource then afterContent + 5 else afterContent
  min afterSource 100

/-- The per-item enrichment-failure fallback reliability of `App.tsx`:
`Math.floor(Math.random() * 15) + 70`, with `fallbackDraw` embedding the
floored draw (so `fallbackDraw < 15` at every real call). -/
def fallbackReliability (fallbackDraw : Nat) : Nat :=
  fallbackDraw + 70

/-- The per-item enrichment-failure fallback impact of `App.tsx`:
`Math.random() > 0.7 ? High : Math.random() > 0.5 ? Medium : Low`, with the
two comparison results passed in as booleans. -/
def fallbackImpact (firstDrawAbove07 secondDrawAbove05 : Bool) : Impact :=
  if firstDrawAbove07 then Impact.High
  else if secondDrawAbove05 then Impact.Medium
  else Impact.Low

/-- The enrichment spread on the success path of `App.tsx`. -/
def enrichItemSuccess (item : NewsItem) (sentiment : String) (baseDraw : Nat) : EnrichedNewsItem :=
  { id := item.id, title := item.title, url := item.url, source := item.source
    published_on := item.published_on, imageurl := item.imageurl, body := item.body
    sentiment := sentiment
    reliability := deriveReliability baseDraw item.body item.source
    impact := deriveImpact item.title sentiment }

/-- The enrichment spread on the per-item failure path of `App.tsx`. -/
def enrichItemFallback (item : NewsItem) (fallbackDraw : Nat)
    (firstDrawAbove07 secondDrawAbove05 : Bool) : EnrichedNewsItem :=
  { id := item.id, title := item.title, url := item.url, source := item.source
    published_on := item.published_on, imageurl := item.imageurl, body := item.body
    sentiment := ("NEUTRAL")
    reliability := fallbackReliability fallbackDraw
    impact := fallbackImpact firstDrawAbove07 secondDrawAbove05 }

/-! ## Consumer-side snapshot reconciliation (`setNews` in `App.tsx`) -/

/-- One step of the `setNews` reconciliation: look up the item's id with
`findIndex`, replace the entry in place when found, append otherwise. -/
def upsertNews (acc : List EnrichedNewsItem) (item : EnrichedNewsItem) : List EnrichedNewsItem :=
  match acc.findIdx? (fun n => decide (n.id = item.id)) with
  | some i => acc.set i item
  | none => acc ++ [item]

/-- Recursive form of `upsertNews` (replace the first entry carrying the id,
else append), used for reasoning. -/
def upsertNewsRec (item : EnrichedNewsItem) : List EnrichedNewsItem → List EnrichedNewsItem
  | [] => [item]
  | n :: rest => if n.id = item.id then item :: rest else n :: upsertNewsRec item rest

/-- The full `setNews` updater of `App.tsx`: fold the processed chunk into
the previous snapshot by id, then re-sort descending by publication time. -/
def reconcileNews (prev chunk : List EnrichedNewsItem) : List EnrichedNewsItem :=
  sortEnrichedDesc (chunk.foldl upsertNews prev)

/-- The ids of a snapshot, in order. -/
def newsIds (l : List EnrichedNewsItem) : List String :=
  l.map (fun n => n.id)

/-! ## Aggregator (`fetchCryptoNews` in the service layer) -/

/-- The module-level `RATE_LIMIT` configuration object. -/
structure RateLimitConfig where
  maxRetries : Nat
  baseDelay : Int
  maxRequests : Nat
  timeWindow : Int

def RATE_LIMIT : RateLimitConfig :=
  { maxRetries := 3, baseDelay := 1000, maxRequests := 10, timeWindow := 60000 }

def NEWS_CACHE_DURATION : Int := 60000

/-- The module-level news cache together with the current clock (epoch
milliseconds), as one explicit state. -/
structure NewsFetchState where
  newsCache : Option (List NewsItem × Int)
  now : Int
deriving DecidableEq

/-- What one aggregation attempt observes after the cache miss: either both
adapters settle (they themselves never reject, each may have degraded to
`[]`), or an error propagates out of the attempt.  `failure` is a propagated
non-abort error; `abortTimeout` is a propagated error whose `name` is
`AbortError`. -/
inductive AttemptOutcome where
  | success (cryptoCompareNews cryptoPanicNews : List NewsItem)
  | failure
  | abortTimeout

/-- The aggregator's opening cache check
`newsCache && Date.now() - newsCache.timestamp < NEWS_CACHE_DURATION`. -/
def freshNewsHit (st : NewsFetchState) : Option (List NewsItem) :=
  match st.newsCache with
  | some (data, ts) => if st.now - ts < NEWS_CACHE_DURATION then some data else none
  | none => none

/-- Everything one `fetchCryptoNews` call does, observably: the `delay` calls
it performs in order, how many attempts invoked the provider adapters, the
settled value of the returned promise (`Except.error` is a rejection), and
the final cache/clock state. -/
structure NewsFetchResult where
  delays : List Int
  adapterCalls : Nat
  settled : Except String (List NewsItem)
  final : NewsFetchState

/-- The aggregator `fetchCryptoNews(retryCount)`: serve a fresh cache hit
immediately; otherwise run one attempt; on success merge, sort, cache and
return; on a propagated `AbortError` rethrow the distinct timeout error; on
any other propagated failure with `retryCount < RATE_LIMIT.maxRetries`, wait
`baseDelay * 2 ^ retryCount` and re-invoke with `retryCount + 1`; after
exhausting retries resolve with the cached list (even stale) or `[]`.
`outcomes k` is what the attempt at counter `k` observes; the clock advances
by each performed delay. -/
def fetchCryptoNews (outcomes : Nat → AttemptOutcome) (st : NewsFetchState)
    (retryCount : Nat) : NewsFetchResult :=
  match freshNewsHit st with
  | some data =>
    { delays := [], adapterCalls := 0, settled := Except.ok data, final := st }
  | none =>
    match outcomes retryCount with
    | AttemptOutcome.success ccNews cpNews =>
      let allNews := mergeAndSortNews ccNews cpNews
      { delays := [], adapterCalls := 1, settled := Except.ok allNews,
        final := { newsCache := some (allNews, st.now), now := st.now } }
    | AttemptOutcome.abortTimeout =>
      { delays := [], adapterCalls := 1,
        settled := Except.error ("Request timeout - please try again"), final := st }
    | AttemptOutcome.failure =>
      if h : retryCount < RATE_LIMIT.maxRetries then
        let delayMs := RATE_LIMIT.baseDelay * 2 ^ retryCount
        let rest := fetchCryptoNews outcomes
          { newsCache := st.newsCache, now := st.now + delayMs } (retryCount + 1)
        { delays := delayMs :: rest.delays, adapterCalls := 1 + rest.adapterCalls,
          settled := rest.settled, final := rest.final }
      else
        { delays := [], adapterCalls := 1,
          settled := Except.ok ((st.newsCache.map Prod.fst).getD []), final := st }
termination_by RATE_LIMIT.maxRetries - retryCount
decreasing_by simp [RATE_LIMIT] at *; omega

/-! ## Sentiment classification (`analyzeSentiment` in the service layer) -/

def SENTIMENT_CACHE_DURATION : Int := 300000

/-- One entry of the module-level `sentimentCache` map. -/
structure SentimentEntry where
  sentiment : String
  timestamp : Int
deriving DecidableEq

/-- The `sentimentCache` map (text → entry), embedded as an association list
in insertion order, matching JavaScript `Map` semantics. -/
def SentimentCache := List (String × SentimentEntry)

/-- `sentimentCache.get(text)`. -/
def sentimentCacheGet (cache : SentimentCache) (text : String) : Option SentimentEntry :=
  (cache.find? (fun p => decide (p.1 = text))).map (fun p => p.2)

/-- `sentimentCache.set(text, entry)`: update the existing key in place, else
append. -/
def sentimentCacheSet (text : String) (entry : SentimentEntry) : SentimentCache → SentimentCache
  | [] => [(text, entry)]
  | p :: rest => if p.1 = text then (text, entry) :: rest else p :: sentimentCacheSet text entry rest

/-- JavaScript `String.prototype.toUpperCase` on the characters of a string
(ASCII-faithful). -/
def toUpperStr (s : String) : String :=
  String.mk (s.data.map Char.toUpper)

/-- JavaScript `String.prototype.trim`: strip whitespace from both ends. -/
def trimStr (s : String) : String :=
  String.mk (((s.data.dropWhile Char.isWhitespace).reverse.dropWhile Char.isWhitespace).reverse)

/-- `data.choices?.[0]?.message?.content?.trim().toUpperCase() || 'NEUTRAL'`:
`content` is `none` when any optional-chaining level is missing; an
empty-string result is falsy and also yields `NEUTRAL`. -/
def rawSentimentOf (content : Option String) : String :=
  match content with
  | none => ("NEUTRAL")
  | some s =>
    let t := toUpperStr (trimStr s)
    if t = ("") then ("NEUTRAL") else t

/-- The response-shaping conditional of the success path:
`['POSITIVE', 'NEGATIVE'].includes(sentiment) ? sentiment : 'NEUTRAL'`. -/
def coerceSentiment (s : String) : String :=
  if s = ("POSITIVE") ∨ s = ("NEGATIVE") then s else ("NEUTRAL")

/-- The classifier call's outcome: `failure` is a non-ok response or any
thrown error; `ok content` is a parsed response with the given (possibly
missing) message content. -/
inductive ClassifierOutcome where
  | failure
  | ok (content : Option String)

/-- The fresh-hit check at the top of `analyzeSentiment`. -/
def freshSentimentHit (cache : SentimentCache) (text : String) (now : Int) : Option String :=
  match sentimentCacheGet cache text with
  | some e => if now - e.timestamp < SENTIMENT_CACHE_DURATION then some e.sentiment else none
  | none => none

/-- `analyzeSentiment(text)`: a fresh cache hit returns the cached word
unchanged; otherwise the classifier is called — on success the raw
(uppercased, trimmed) word is cached and the coerced word is returned, and on
failure the cached word (read without any freshness check) or `NEUTRAL` is
returned.  Returns the response content together with the new cache state. -/
def analyzeSentiment (upstream : ClassifierOutcome) (now : Int) (cache : SentimentCache)
    (text : String) : String × SentimentCache :=
  match freshSentimentHit cache text now with
  | some s => (s, cache)
  | none =>
    match upstream with
    | ClassifierOutcome.ok content =>
      let sentiment := rawSentimentOf content
      let cache2 := sentimentCacheSet text { sentiment := sentiment, timestamp := now } cache
      (coerceSentiment sentiment, cache2)
    | ClassifierOutcome.failure =>
      (((sentimentCacheGet cache text).map (fun e => e.sentiment)).getD ("NEUTRAL"), cache)

/-! ## Market data (`fetchMarketData` in the service layer) -/

def MARKET_DATA_CACHE_DURATION : Int := 30000

/-- The upstream outcome of one CoinGecko price call, after the cache miss:
status 429, a parsed body without the requested symbol's entry, a good body
(already assembled into the returned snapshot, with mock-field backfills
applied — opaque here), or any thrown error (network error, the 5-second
abort timeout, or a non-ok status rethrown by `validateResponse`).  The
snapshot payload type is kept abstract: every claim about this call concerns
cache flow, not the float arithmetic inside the snapshots. -/
inductive MarketOutcome (α : Type) where
  | rateLimited
  | malformed
  | ok (data : α)
  | exception

/-- What one `fetchMarketData` call returns and leaves in the module-level
`marketDataCache`. -/
structure MarketFetchResult (α : Type) where
  result : α
  cache : Option (α × Int)
deriving DecidableEq

/-- The opening cache check of `fetchMarketData`. -/
def marketFreshHit {α : Type} (cache : Option (α × Int)) (now : Int) : Option α :=
  match cache with
  | some (d, ts) => if now - ts < MARKET_DATA_CACHE_DURATION then some d else none
  | none => none

/-- `fetchMarketData`: serve a fresh cache hit; otherwise `mock` is the
random mock snapshot generated at the top of the `try` block and `fallback`
the independent random snapshot generated in the `catch` block.  A 429
status or a malformed payload stores and returns `mock` (overwriting any
older cache entry); a success stores and returns the assembled snapshot; a
thrown error returns the existing cache entry unchanged if one exists, else
stores and returns `fallback`. -/
def fetchMarketData {α : Type} (mock fallback : α) (upstream : MarketOutcome α)
    (cache : Option (α × Int)) (now : Int) : MarketFetchResult α :=
  match marketFreshHit cache now with
  | some d => { result := d, cache := cache }
  | none =>
    match upstream with
    | MarketOutcome.rateLimited => { result := mock, cache := some (mock, now) }
    | MarketOutcome.malformed => { result := mock, cache := some (mock, now) }
    | MarketOutcome.ok data => { result := data, cache := some (data, now) }
    | MarketOutcome.exception =>
      match cache with
      | some (d, ts) => { result := d, cache := some (d, ts) }
      | none => { result := fallback, cache := some (fallback, now) }

/-! ## Timeout wiring of the aggregation cycle (`fetchCryptoNews` body) -/

/-- The slice of a `fetch(url, options)` call that timeout cancellation
depends on: whether `signal: controller.signal` is among the options. -/
structure FetchRequestOptions where
  hasAbortSignal : Bool
deriving DecidableEq

/-- Options of the CryptoCompare request inside the aggregation cycle:
`headers` only — no `signal` entry. -/
def cryptoCompareNewsOptions : FetchRequestOptions := { hasAbortSignal := false }

/-- Options of the CryptoPanic request inside the aggregation cycle: the
`fetch(url)` call passes no options at all, hence no `signal`. -/
def cryptoPanicNewsOptions : FetchRequestOptions := { hasAbortSignal := false }

/-- Options of the CoinGecko request inside `fetchMarketData`, for contrast:
that call does pass `signal: controller.signal`. -/
def coingeckoMarketOptions : FetchRequestOptions := { hasAbortSignal := true }

/-- How a request ends under an abort scheduled at `abortAt`: a request is
aborted exactly when it carries the abort signal and is still pending when
the abort fires; a request without the signal always runs to completion. -/
inductive RequestRun (α : Type) where
  | completed (value : α)
  | aborted
deriving DecidableEq

def runUnderAbort {α : Type} (opts : FetchRequestOptions) (abortAt duration : Int)
    (value : α) : RequestRun α :=
  if opts.hasAbortSignal = true ∧ abortAt < duration then RequestRun.aborted
  else RequestRun.completed value

/-- The aggregation cycle's timeout budget: `setTimeout(() => controller.abort(), 10000)`. -/
def NEWS_TIMEOUT_BUDGET : Int := 10000

/-- One aggregation cycle under the cycle's abort timer, given each
provider request's duration and (un-aborted) adapter result: if both
requests complete, the cycle resolves with the merged sorted list; if either
is aborted, the propagated `AbortError` is mapped to the distinct timeout
error. -/
def newsCycleRun (durCC durCP : Int) (ccNews cpNews : List NewsItem) :
    Except String (List NewsItem) :=
  match runUnderAbort cryptoCompareNewsOptions NEWS_TIMEOUT_BUDGET durCC ccNews,
        runUnderAbort cryptoPanicNewsOptions NEWS_TIMEOUT_BUDGET durCP cpNews with
  | RequestRun.completed a, RequestRun.completed b => Except.ok (mergeAndSortNews a b)
  | _, _ => Except.error ("Request timeout - please try again")

/-! ## Theorems -/

/-- Sanity: the market-data request does carry the abort signal, so the same
abort semantics does cancel it when it outlives its 5-second timer. -/
theorem marketRequestCanBeAborted :
    runUnderAbort coingeckoMarketOptions 5000 6000 (0 : Nat) = RequestRun.aborted := by
  decide

/-- Claim C8: for every successfully classified item, the derived impact is
High if the title matches the urgency keywords OR (the title matches the
market keywords AND the sentiment is non-neutral); Medium if the title
matches the market keywords OR the sentiment is non-neutral; Low otherwise
— the source's `sentimentStrength` chain computes exactly the
specification's rule. -/
theorem deriveImpact_matches_spec_rule (title sentiment : String) :
    deriveImpact title sentiment = specImpact title sentiment := by
  unfold deriveImpact specImpact
  by_cases hs : sentiment = ("NEUTRAL") <;>
    cases hu : titleMatches title urgentKeywords <;>
      cases hp : titleMatches title marketKeywords <;>
        simp [hs, hu, hp]

/-- Claim C9: with the floored pseudo-random draws in their real ranges
(`baseDraw < 20`, `fallbackDraw < 15`), the success-path reliability is the
base `baseDraw + 75 ∈ [75, 95)` plus 5 for a body longer than 200
characters plus 5 for the trusted provider, capped at 100 — hence an
integer in `[75, 100]`; the per-item fallback reliability is an integer in
`[70, 85)`. -/
theorem deriveReliability_ranges (baseDraw fallbackDraw : Nat) (body source : String)
    (hbase : baseDraw < 20) (hfall : fallbackDraw < 15) :
    (75 ≤ baseDraw + 75 ∧ baseDraw + 75 < 95) ∧
    deriveReliability baseDraw body source
      = min (baseDraw + 75 + (if body.length > 200 then 5 else 0)
          + (if strIncludes source ("CryptoCompare") = true then 5 else 0)) 100 ∧
    (75 ≤ deriveReliability baseDraw body source ∧
      deriveReliability baseDraw body source ≤ 100) ∧
    (70 ≤ fallbackReliability fallbackDraw ∧ fallbackReliability fallbackDraw < 85) := by
  unfold deriveReliability fallbackReliability
  simp only [decide_eq_true_eq]
  split_ifs <;> simp_all <;> omega

theorem deriveReliability_ranges_witness :
    deriveReliability 5 ("short") ("CryptoCompare - X") = 85 ∧
    75 ≤ deriveReliability 5 ("short") ("CryptoCompare - X") ∧
    70 ≤ fallbackReliability 7 ∧ fallbackReliability 7 < 85 := by
  have h := deriveReliability_ranges 5 7 ("short") ("CryptoCompare - X")
    (by decide) (by decide)
  exact ⟨by decide, h.2.2.1.1, h.2.2.2.1, h.2.2.2.2⟩

/-- Claim C2 (evaluation of the code at the failing situation): neither
request of the aggregation cycle carries the abort signal, so for every
request duration — in particular durations exceeding the 10-second budget —
both requests run to completion, nothing is cancelled, and the cycle
resolves with the merged list instead of surfacing the timeout error. -/
theorem newsCycleTimeoutAbortsNothing (durCC durCP : Int) (ccNews cpNews : List NewsItem) :
    runUnderAbort cryptoCompareNewsOptions NEWS_TIMEOUT_BUDGET durCC ccNews
      = RequestRun.completed ccNews ∧
    runUnderAbort cryptoPanicNewsOptions NEWS_TIMEOUT_BUDGET durCP cpNews
      = RequestRun.completed cpNews ∧
    newsCycleRun durCC durCP ccNews cpNews = Except.ok (mergeAndSortNews ccNews cpNews) := by
  refine ⟨?_, ?_, ?_⟩ <;>
    simp [newsCycleRun, runUnderAbort, cryptoCompareNewsOptions, cryptoPanicNewsOptions]

/-- Reading a key right after writing it finds the written entry. -/
theorem sentimentCacheGet_set_self (cache : SentimentCache) (text : String) (e : SentimentEntry) :
    sentimentCacheGet (sentimentCacheSet text e cache) text = some e := by
  induction cache with
  | nil => simp [sentimentCacheSet, sentimentCacheGet, List.find?]
  | cons p rest ih =>
    by_cases h : p.1 = text
    · simp [sentimentCacheSet, sentimentCacheGet, List.find?, h]
    · simp only [sentimentCacheSet, if_neg h]
      simpa [sentimentCacheGet, List.find?, h] using ih

/-- Claim C5 counterexample: with an upstream classification of `bullish`,
the first call coerces its own response to `NEUTRAL` but caches the raw
word, and a second call on the same text 1 second later (inside the
5-minute sentiment TTL) answers `BULLISH` from the cache — a value outside
POSITIVE/NEUTRAL/NEGATIVE. -/
theorem analyzeSentiment_cache_bypasses_coercion :
    (analyzeSentiment (ClassifierOutcome.ok (some ("bullish"))) 0 ([] : SentimentCache)
      ("Feels good")).1 = ("NEUTRAL") ∧
    (analyzeSentiment (ClassifierOutcome.ok none) 1000
        ((analyzeSentiment (ClassifierOutcome.ok (some ("bullish"))) 0 ([] : SentimentCache)
          ("Feels good")).2)
        ("Feels good")).1 = ("BULLISH") ∧
    ¬ ((("BULLISH") = ("POSITIVE")) ∨ (("BULLISH") = ("NEUTRAL")) ∨ (("BULLISH") = ("NEGATIVE"))) := by
  decide

/-- Claim C5 as amended: on every call that actually consults the upstream
classifier (no fresh cache hit for the text), the returned sentiment is
coerced into POSITIVE/NEUTRAL/NEGATIVE — but the cache entry written for
the text stores the raw uppercased response, which later fresh cache hits
return uncoerced. -/
theorem analyzeSentiment_coerces_upstream_response (content : Option String) (now : Int)
    (cache : SentimentCache) (text : String)
    (hmiss : freshSentimentHit cache text now = none) :
    ((analyzeSentiment (ClassifierOutcome.ok content) now cache text).1 = ("POSITIVE") ∨
     (analyzeSentiment (ClassifierOutcome.ok content) now cache text).1 = ("NEUTRAL") ∨
     (analyzeSentiment (ClassifierOutcome.ok content) now cache text).1 = ("NEGATIVE")) ∧
    sentimentCacheGet (analyzeSentiment (ClassifierOutcome.ok content) now cache text).2 text
      = some { sentiment := rawSentimentOf content, timestamp := now } := by
  constructor
  · simp only [analyzeSentiment, hmiss]
    unfold coerceSentiment
    split_ifs with h
    · rcases h with h | h <;> simp [h]
    · simp
  · simp only [analyzeSentiment, hmiss]
    exact sentimentCacheGet_set_self cache text _

theorem analyzeSentiment_coerces_upstream_response_witness :
    freshSentimentHit ([] : SentimentCache) ("Markets rally") 0 = none ∧
    ((analyzeSentiment (ClassifierOutcome.ok (some ("positive "))) 0 ([] : SentimentCache)
        ("Markets rally")).1 = ("POSITIVE") ∨
     (analyzeSentiment (ClassifierOutcome.ok (some ("positive "))) 0 ([] : SentimentCache)
        ("Markets rally")).1 = ("NEUTRAL") ∨
     (analyzeSentiment (ClassifierOutcome.ok (some ("positive "))) 0 ([] : SentimentCache)
        ("Markets rally")).1 = ("NEGATIVE")) :=
  ⟨by decide,
   (analyzeSentiment_coerces_upstream_response (some ("positive ")) 0 ([] : SentimentCache)
     ("Markets rally") (by decide)).1⟩

/-- Claim C10 counterexample: on a thrown error (network error or timeout)
with an older cached snapshot present (here written at time 0, read at time
60000, so stale), `fetchMarketData` returns the stale cached snapshot
unchanged and writes no mock: the cache keeps its old payload and old
timestamp rather than receiving the freshly generated mock (99) or fallback
(98) snapshot with timestamp 60000. -/
theorem fetchMarketData_exception_keeps_stale_cache :
    fetchMarketData (α := Nat) 99 98 MarketOutcome.exception (some (7, 0)) 60000
      = { result := 7, cache := some (7, 0) } ∧
    (fetchMarketData (α := Nat) 99 98 MarketOutcome.exception (some (7, 0)) 60000).cache
      ≠ some (99, 60000) ∧
    (fetchMarketData (α := Nat) 99 98 MarketOutcome.exception (some (7, 0)) 60000).cache
      ≠ some (98, 60000) := by
  decide

/-- Claim C10 as amended: on a cache miss, a 429 response or a malformed
payload stores the freshly generated mock snapshot with the current
timestamp (even over an older cached snapshot) and returns it; a thrown
error (network error, timeout) returns an existing cached snapshot
unchanged when one exists and otherwise stores the random fallback snapshot
with the current timestamp; and after any such mock write, every call
within the 30-second TTL returns the fabricated snapshot as an ordinary
fresh cache hit. -/
theorem fetchMarketData_failure_mock_caching {α : Type} (mock fallback d : α)
    (ts now t2 : Int) (cache : Option (α × Int))
    (hmiss : marketFreshHit cache now = none)
    (httl : t2 - now < MARKET_DATA_CACHE_DURATION) :
    fetchMarketData mock fallback MarketOutcome.rateLimited cache now
      = { result := mock, cache := some (mock, now) } ∧
    fetchMarketData mock fallback MarketOutcome.malformed cache now
      = { result := mock, cache := some (mock, now) } ∧
    fetchMarketData mock fallback MarketOutcome.exception none now
      = { result := fallback, cache := some (fallback, now) } ∧
    (cache = some (d, ts) →
      fetchMarketData mock fallback MarketOutcome.exception cache now
        = { result := d, cache := some (d, ts) }) ∧
    (∀ (u2 : MarketOutcome α) (m2 f2 : α),
      fetchMarketData m2 f2 u2 (some (mock, now)) t2
        = { result := mock, cache := some (mock, now) }) := by
  have hfresh : marketFreshHit (some (mock, now)) t2 = some mock := by
    simp [marketFreshHit, if_pos httl]
  refine ⟨?_, ?_, ?_, ?_, ?_⟩
  · simp [fetchMarketData, hmiss]
  · simp [fetchMarketData, hmiss]
  · simp [fetchMarketData, marketFreshHit]
  · intro hc
    subst hc
    simp [fetchMarketData, hmiss]
  · intro u2 m2 f2
    simp [fetchMarketData, hfresh]

theorem fetchMarketData_failure_mock_caching_witness :
    marketFreshHit (α := Nat) (some (7, 0)) 60000 = none ∧
    (70000 : Int) - 60000 < MARKET_DATA_CACHE_DURATION ∧
    fetchMarketData (α := Nat) 99 98 MarketOutcome.rateLimited (some (7, 0)) 60000
      = { result := 99, cache := some (99, 60000) } :=
  ⟨by decide, by decide,
   (fetchMarketData_failure_mock_caching (α := Nat) 99 98 7 0 60000 70000 (some (7, 0))
     (by decide) (by decide)).1⟩

/-- A CryptoCompare-side item and a CryptoPanic-side item sharing id 42. -/
def ccDupItem : NewsItem :=
  { id := ("42"), title := ("a"), url := (""), source := ("CryptoCompare - X")
    published_on := 100, imageurl := (""), body := ("") }

def cpDupItem : NewsItem :=
  { id := ("42"), title := ("b"), url := (""), source := ("CryptoPanic - Y")
    published_on := 50, imageurl := (""), body := ("") }

/-- Claim C3 counterexample: when the two providers contribute items sharing
id 42, the aggregator's merged output (plain concatenation plus sort, no
de-duplication) contains two entries for that id, not exactly one. -/
theorem mergeAndSortNews_keeps_duplicate_ids :
    ((mergeAndSortNews [ccDupItem] [cpDupItem]).countP (fun n => decide (n.id = ("42")))) = 2 ∧
    ¬ ((mergeAndSortNews [ccDupItem] [cpDupItem]).countP (fun n => decide (n.id = ("42")))) = 1 := by
  decide


/-- `upsertNews` (the `findIndex`-and-`set`-or-push step) computes the same
list as its recursive form. -/
theorem upsertNews_eq_rec (item : EnrichedNewsItem) (acc : List EnrichedNewsItem) :
    upsertNews acc item = upsertNewsRec item acc := by
  induction acc with
  | nil => simp [upsertNews, upsertNewsRec, List.findIdx?]
  | cons n rest ih =>
    by_cases h : n.id = item.id
    · simp [upsertNews, upsertNewsRec, List.findIdx?_cons, h, List.set]
    · simp only [upsertNews] at ih
      cases hfind : rest.findIdx? (fun m => decide (m.id = item.id)) with
      | none =>
        rw [hfind] at ih
        dsimp only [] at ih
        simp only [upsertNews, upsertNewsRec, List.findIdx?_cons, List.findIdx?_succ, h,
          hfind, decide_False, Bool.false_eq_true, if_false, Option.map_none', if_neg,
          List.cons_append]
        exact congrArg (List.cons n) ih
      | some i =>
        rw [hfind] at ih
        dsimp only [] at ih
        simp only [upsertNews, upsertNewsRec, List.findIdx?_cons, List.findIdx?_succ, h,
          hfind, decide_False, Bool.false_eq_true, if_false, Option.map_some', if_neg,
          List.set_cons_succ]
        exact congrArg (List.cons n) ih

/-- Every id present after one upsert was already present or is the upserted
item's id. -/
theorem mem_newsIds_upsertNewsRec (x : String) (item : EnrichedNewsItem)
    (acc : List EnrichedNewsItem)
    (h : x ∈ newsIds (upsertNewsRec item acc)) : x ∈ newsIds acc ∨ x = item.id := by
  induction acc with
  | nil =>
    simp [upsertNewsRec, newsIds] at h
    exact Or.inr h
  | cons n rest ih =>
    by_cases hid : n.id = item.id
    · rw [upsertNewsRec, if_pos hid] at h
      simp only [newsIds, List.map_cons, List.mem_cons] at h ⊢
      rcases h with h | h
      · exact Or.inr (by rw [h])
      · exact Or.inl (Or.inr h)
    · rw [upsertNewsRec, if_neg hid] at h
      simp only [newsIds, List.map_cons, List.mem_cons] at h ⊢
      rcases h with h | h
      · exact Or.inl (Or.inl h)
      · rcases ih (by simpa [newsIds] using h) with h2 | h2
        · exact Or.inl (Or.inr (by simpa [newsIds] using h2))
        · exact Or.inr h2

/-- One upsert preserves id uniqueness. -/
theorem nodup_newsIds_upsertNewsRec (item : EnrichedNewsItem) (acc : List EnrichedNewsItem)
    (h : (newsIds acc).Nodup) : (newsIds (upsertNewsRec item acc)).Nodup := by
  induction acc with
  | nil => simp [upsertNewsRec, newsIds]
  | cons n rest ih =>
    simp only [newsIds, List.map_cons, List.nodup_cons] at h
    by_cases hid : n.id = item.id
    · rw [upsertNewsRec, if_pos hid]
      simp only [newsIds, List.map_cons, List.nodup_cons]
      exact ⟨by rw [← hid]; exact h.1, h.2⟩
    · rw [upsertNewsRec, if_neg hid]
      simp only [newsIds, List.map_cons, List.nodup_cons]
      refine ⟨?_, ih h.2⟩
      intro hmem
      rcases mem_newsIds_upsertNewsRec n.id item rest (by simpa [newsIds] using hmem)
        with h2 | h2
      · exact h.1 (by simpa [newsIds] using h2)
      · exact hid h2

/-- Folding a whole chunk through the upsert preserves id uniqueness. -/
theorem nodup_newsIds_foldl (chunk : List EnrichedNewsItem) :
    ∀ prev : List EnrichedNewsItem, (newsIds prev).Nodup →
      (newsIds (chunk.foldl upsertNews prev)).Nodup := by
  induction chunk with
  | nil => intro prev h; simpa using h
  | cons c rest ih =>
    intro prev h
    simp only [List.foldl_cons]
    exact ih _ (by rw [upsertNews_eq_rec]; exact nodup_newsIds_upsertNewsRec c prev h)

/-- Two enriched items sharing id 42, distinguishable by title. -/
def dupEnrichedA : EnrichedNewsItem :=
  { id := ("42"), title := ("first"), url := (""), source := ("CryptoCompare - X")
    published_on := 100, imageurl := (""), body := ("")
    sentiment := ("NEUTRAL"), reliability := 80, impact := Impact.Low }

def dupEnrichedB : EnrichedNewsItem :=
  { id := ("42"), title := ("second"), url := (""), source := ("CryptoPanic - Y")
    published_on := 50, imageurl := (""), body := ("")
    sentiment := ("POSITIVE"), reliability := 90, impact := Impact.Medium }

/-- Claim C3 as amended: the aggregator's merged output is not de-duplicated
(see the counterexample), but the feed snapshot exposed to consumers is: the
`setNews` reconciliation replaces existing ids in place and appends new ids,
so id uniqueness of the snapshot is preserved across every refresh, and when
several entries share an id the last-seen one wins — shown both for a
duplicate inside one chunk and for a chunk entry replacing a previous
snapshot entry, in both orders. -/
theorem reconcileNews_dedupes_ids (prev chunk : List EnrichedNewsItem)
    (h : (newsIds prev).Nodup) :
    (newsIds (reconcileNews prev chunk)).Nodup ∧
    reconcileNews [] [dupEnrichedA, dupEnrichedB] = [dupEnrichedB] ∧
    reconcileNews [dupEnrichedA] [dupEnrichedB] = [dupEnrichedB] ∧
    reconcileNews [dupEnrichedB] [dupEnrichedA] = [dupEnrichedA] := by
  refine ⟨?_, by decide, by decide, by decide⟩
  have hfold := nodup_newsIds_foldl chunk prev h
  have hperm : ((reconcileNews prev chunk).map (fun n => n.id)).Perm
      ((chunk.foldl upsertNews prev).map (fun n => n.id)) :=
    (List.perm_insertionSort enrichedDescLe (chunk.foldl upsertNews prev)).map _
  exact hperm.symm.nodup (by simpa [newsIds] using hfold)

theorem reconcileNews_dedupes_ids_witness :
    (newsIds [dupEnrichedA]).Nodup ∧
    (newsIds (reconcileNews [dupEnrichedA] [dupEnrichedB])).Nodup :=
  ⟨by decide,
   (reconcileNews_dedupes_ids [dupEnrichedA] [dupEnrichedB] (by decide)).1⟩

/-- Claim C4: every merged list produced by an aggregation cycle and every
feed snapshot exposed to consumers is sorted non-increasing in
`published_on` (`newsDescLe a b` and `enrichedDescLe a b` both unfold to
`b.published_on ≤ a.published_on`), for all provider contributions and all
reconciliation inputs — in particular independent of adapter completion
order; the merged list is moreover exactly a permutation of the two
providers' concatenated results. -/
theorem aggregated_feed_sorted_desc (ccNews cpNews : List NewsItem)
    (prev chunk : List EnrichedNewsItem) :
    List.Sorted newsDescLe (mergeAndSortNews ccNews cpNews) ∧
    List.Sorted enrichedDescLe (reconcileNews prev chunk) ∧
    (mergeAndSortNews ccNews cpNews).Perm (ccNews ++ cpNews) :=
  ⟨List.sorted_insertionSort newsDescLe (ccNews ++ cpNews),
   List.sorted_insertionSort enrichedDescLe (chunk.foldl upsertNews prev),
   List.perm_insertionSort newsDescLe (ccNews ++ cpNews)⟩

/-- Claim C6: every degraded upstream outcome of a provider adapter
(non-success HTTP status, body missing the expected array field, or any
thrown exception) makes that adapter resolve with the empty list instead of
propagating, and the aggregated merge then equals the surviving provider's
normalized items (sorted) — for either provider failing. -/
theorem adapter_failure_isolated (synthIds : Nat → String)
    (uc : UpstreamFetch (Option (List CCRawItem)))
    (up : UpstreamFetch (Option (List CPRawItem)))
    (hc : upstreamDegraded uc = true) :
    fetchCryptoCompareNews uc = [] ∧
    mergeAndSortNews (fetchCryptoCompareNews uc) (fetchCryptoPanicNews synthIds up)
      = List.insertionSort newsDescLe (fetchCryptoPanicNews synthIds up) ∧
    (∀ vp : UpstreamFetch (Option (List CPRawItem)), upstreamDegraded vp = true →
      fetchCryptoPanicNews synthIds vp = [] ∧
      ∀ uc2 : UpstreamFetch (Option (List CCRawItem)),
        mergeAndSortNews (fetchCryptoCompareNews uc2) (fetchCryptoPanicNews synthIds vp)
          = List.insertionSort newsDescLe (fetchCryptoCompareNews uc2)) := by
  have hcc : fetchCryptoCompareNews uc = [] := by
    rcases uc with _ | s | b
    · rfl
    · rfl
    · rcases b with _ | items
      · rfl
      · simp [upstreamDegraded] at hc
  refine ⟨hcc, ?_, ?_⟩
  · rw [hcc, mergeAndSortNews, List.nil_append]
  · intro vp hvp
    have hcp : fetchCryptoPanicNews synthIds vp = [] := by
      rcases vp with _ | s | b
      · rfl
      · rfl
      · rcases b with _ | items
        · rfl
        · simp [upstreamDegraded] at hvp
    exact ⟨hcp, fun uc2 => by rw [hcp, mergeAndSortNews, List.append_nil]⟩

theorem adapter_failure_isolated_witness :
    upstreamDegraded (UpstreamFetch.httpError (β := Option (List CCRawItem)) 500) = true ∧
    fetchCryptoCompareNews (UpstreamFetch.httpError 500) = [] :=
  ⟨by decide,
   (adapter_failure_isolated (fun _ => ("s")) (UpstreamFetch.httpError 500)
     (UpstreamFetch.ok none) (by decide)).1⟩

/-- A stale-or-absent cache stays stale-or-absent when the clock only moves
forward. -/
theorem freshNewsHit_advance (cache : Option (List NewsItem × Int)) (now d : Int)
    (hd : 0 ≤ d) (h : freshNewsHit { newsCache := cache, now := now } = none) :
    freshNewsHit { newsCache := cache, now := now + d } = none := by
  cases cache with
  | none => rfl
  | some p =>
    obtain ⟨data, ts⟩ := p
    simp only [freshNewsHit] at h ⊢
    by_cases h1 : now - ts < NEWS_CACHE_DURATION
    · rw [if_pos h1] at h; cases h
    · rw [if_neg (by simp [NEWS_CACHE_DURATION] at h1 ⊢; omega)]

/-- Unfolding `fetchCryptoNews` on a fresh cache hit. -/
theorem fetchCryptoNews_cacheHit (outcomes : Nat → AttemptOutcome) (st : NewsFetchState)
    (k : Nat) (data : List NewsItem) (hhit : freshNewsHit st = some data) :
    fetchCryptoNews outcomes st k =
      { delays := [], adapterCalls := 0, settled := Except.ok data, final := st } := by
  rw [fetchCryptoNews.eq_def]
  simp only [hhit]

/-- Unfolding `fetchCryptoNews` on a cache miss with a successful attempt. -/
theorem fetchCryptoNews_success (outcomes : Nat → AttemptOutcome) (st : NewsFetchState)
    (k : Nat) (ccNews cpNews : List NewsItem) (hmiss : freshNewsHit st = none)
    (hs : outcomes k = AttemptOutcome.success ccNews cpNews) :
    fetchCryptoNews outcomes st k =
      { delays := [], adapterCalls := 1,
        settled := Except.ok (mergeAndSortNews ccNews cpNews),
        final := { newsCache := some (mergeAndSortNews ccNews cpNews, st.now), now := st.now } } := by
  rw [fetchCryptoNews.eq_def]
  simp only [hmiss, hs]

/-- Unfolding `fetchCryptoNews` on a cache miss with a propagated non-abort
failure while retries remain: one backoff delay, then the recursive call. -/
theorem fetchCryptoNews_fail_step (outcomes : Nat → AttemptOutcome) (st : NewsFetchState)
    (k : Nat) (hmiss : freshNewsHit st = none) (hf : outcomes k = AttemptOutcome.failure)
    (hk : k < RATE_LIMIT.maxRetries) :
    fetchCryptoNews outcomes st k =
      { delays := (RATE_LIMIT.baseDelay * 2 ^ k) ::
          (fetchCryptoNews outcomes
            { newsCache := st.newsCache, now := st.now + RATE_LIMIT.baseDelay * 2 ^ k }
            (k + 1)).delays,
        adapterCalls := 1 + (fetchCryptoNews outcomes
            { newsCache := st.newsCache, now := st.now + RATE_LIMIT.baseDelay * 2 ^ k }
            (k + 1)).adapterCalls,
        settled := (fetchCryptoNews outcomes
            { newsCache := st.newsCache, now := st.now + RATE_LIMIT.baseDelay * 2 ^ k }
            (k + 1)).settled,
        final := (fetchCryptoNews outcomes
            { newsCache := st.newsCache, now := st.now + RATE_LIMIT.baseDelay * 2 ^ k }
            (k + 1)).final } := by
  rw [fetchCryptoNews.eq_def]
  simp only [hmiss, hf, dif_pos hk]

/-- Unfolding `fetchCryptoNews` on a cache miss with a propagated non-abort
failure once retries are exhausted: resolve with the cached list or `[]`. -/
theorem fetchCryptoNews_exhausted (outcomes : Nat → AttemptOutcome) (st : NewsFetchState)
    (k : Nat) (hmiss : freshNewsHit st = none) (hf : outcomes k = AttemptOutcome.failure)
    (hk : ¬ k < RATE_LIMIT.maxRetries) :
    fetchCryptoNews outcomes st k =
      { delays := [], adapterCalls := 1,
        settled := Except.ok ((st.newsCache.map Prod.fst).getD []), final := st } := by
  rw [fetchCryptoNews.eq_def]
  simp only [hmiss, hf, dif_neg hk]

/-- When no attempt propagates an `AbortError`, every `fetchCryptoNews` call
resolves (never rejects), by induction on the remaining retry budget. -/
theorem fetchCryptoNews_settles (outcomes : Nat → AttemptOutcome)
    (hnoabort : ∀ j, outcomes j ≠ AttemptOutcome.abortTimeout) :
    ∀ (n k : Nat) (st : NewsFetchState), RATE_LIMIT.maxRetries - k < n →
      ∃ data, (fetchCryptoNews outcomes st k).settled = Except.ok data := by
  intro n
  induction n with
  | zero => intro k st h; omega
  | succ n ih =>
    intro k st hlt
    cases hh : freshNewsHit st with
    | some data => exact ⟨data, by rw [fetchCryptoNews_cacheHit outcomes st k data hh]⟩
    | none =>
      cases ho : outcomes k with
      | success ccNews cpNews =>
        exact ⟨_, by rw [fetchCryptoNews_success outcomes st k ccNews cpNews hh ho]⟩
      | abortTimeout => exact absurd ho (hnoabort k)
      | failure =>
        by_cases hk : k < RATE_LIMIT.maxRetries
        · obtain ⟨data, hd⟩ := ih (k + 1)
            { newsCache := st.newsCache, now := st.now + RATE_LIMIT.baseDelay * 2 ^ k }
            (by simp [RATE_LIMIT] at hk hlt ⊢; omega)
          exact ⟨data, by rw [fetchCryptoNews_fail_step outcomes st k hh ho hk]; exact hd⟩
        · exact ⟨_, by rw [fetchCryptoNews_exhausted outcomes st k hh ho hk]⟩

/-- Claim C1: starting from a cache miss, (a) every propagated non-abort
failure at attempt counter `k < RATE_LIMIT.maxRetries` makes
`fetchCryptoNews` wait `RATE_LIMIT.baseDelay * 2 ^ k` (base 1000 ms) and
re-invoke itself with counter `k + 1`; (b) when every attempt fails, the
call from counter 0 performs exactly the delays 1000 ms, 2000 ms, 4000 ms
and then resolves with the last cached news list (even stale) or the empty
list when no cache exists; (c) under normal operation (no attempt
propagates an `AbortError`) the returned promise always resolves, never
rejects. -/
theorem fetchCryptoNews_retry_backoff (outcomes : Nat → AttemptOutcome)
    (st : NewsFetchState) (k : Nat) (hmiss : freshNewsHit st = none) :
    (outcomes k = AttemptOutcome.failure → k < RATE_LIMIT.maxRetries →
      fetchCryptoNews outcomes st k =
        { delays := (RATE_LIMIT.baseDelay * 2 ^ k) ::
            (fetchCryptoNews outcomes
              { newsCache := st.newsCache, now := st.now + RATE_LIMIT.baseDelay * 2 ^ k }
              (k + 1)).delays,
          adapterCalls := 1 + (fetchCryptoNews outcomes
              { newsCache := st.newsCache, now := st.now + RATE_LIMIT.baseDelay * 2 ^ k }
              (k + 1)).adapterCalls,
          settled := (fetchCryptoNews outcomes
              { newsCache := st.newsCache, now := st.now + RATE_LIMIT.baseDelay * 2 ^ k }
              (k + 1)).settled,
          final := (fetchCryptoNews outcomes
              { newsCache := st.newsCache, now := st.now + RATE_LIMIT.baseDelay * 2 ^ k }
              (k + 1)).final }) ∧
    ((∀ j, outcomes j = AttemptOutcome.failure) →
      (fetchCryptoNews outcomes st 0).delays = [1000, 2000, 4000] ∧
      (fetchCryptoNews outcomes st 0).settled
        = Except.ok ((st.newsCache.map Prod.fst).getD [])) ∧
    ((∀ j, outcomes j ≠ AttemptOutcome.abortTimeout) →
      ∃ data, (fetchCryptoNews outcomes st k).settled = Except.ok data) := by
  refine ⟨fun hf hk => fetchCryptoNews_fail_step outcomes st k hmiss hf hk, fun hfail => ?_,
    fun hno => fetchCryptoNews_settles outcomes hno (RATE_LIMIT.maxRetries - k + 1) k st
      (by omega)⟩
  have h1 : freshNewsHit
      { newsCache := st.newsCache, now := st.now + RATE_LIMIT.baseDelay * 2 ^ 0 } = none :=
    freshNewsHit_advance st.newsCache st.now _ (by norm_num [RATE_LIMIT]) hmiss
  have h2 : freshNewsHit
      { newsCache := st.newsCache,
        now := st.now + RATE_LIMIT.baseDelay * 2 ^ 0 + RATE_LIMIT.baseDelay * 2 ^ 1 } = none :=
    freshNewsHit_advance st.newsCache _ _ (by norm_num [RATE_LIMIT]) h1
  have h3 : freshNewsHit
      { newsCache := st.newsCache,
        now := st.now + RATE_LIMIT.baseDelay * 2 ^ 0 + RATE_LIMIT.baseDelay * 2 ^ 1
          + RATE_LIMIT.baseDelay * 2 ^ 2 } = none :=
    freshNewsHit_advance st.newsCache _ _ (by norm_num [RATE_LIMIT]) h2
  have e0 := fetchCryptoNews_fail_step outcomes st 0 hmiss (hfail 0)
    (by norm_num [RATE_LIMIT])
  have e1 := fetchCryptoNews_fail_step outcomes
    { newsCache := st.newsCache, now := st.now + RATE_LIMIT.baseDelay * 2 ^ 0 } 1 h1 (hfail 1)
    (by norm_num [RATE_LIMIT])
  have e2 := fetchCryptoNews_fail_step outcomes
    { newsCache := st.newsCache,
      now := st.now + RATE_LIMIT.baseDelay * 2 ^ 0 + RATE_LIMIT.baseDelay * 2 ^ 1 } 2 h2
    (hfail 2) (by norm_num [RATE_LIMIT])
  have e3 := fetchCryptoNews_exhausted outcomes
    { newsCache := st.newsCache,
      now := st.now + RATE_LIMIT.baseDelay * 2 ^ 0 + RATE_LIMIT.baseDelay * 2 ^ 1
        + RATE_LIMIT.baseDelay * 2 ^ 2 } 3 h3 (hfail 3) (by norm_num [RATE_LIMIT])
  refine ⟨?_, ?_⟩ <;> (rw [e0, e1, e2, e3]; try norm_num [RATE_LIMIT])

theorem fetchCryptoNews_retry_backoff_witness :
    (fetchCryptoNews (fun _ => AttemptOutcome.failure)
      { newsCache := none, now := 0 } 0).delays = [1000, 2000, 4000] ∧
    (fetchCryptoNews (fun _ => AttemptOutcome.failure)
      { newsCache := none, now := 0 } 0).settled = Except.ok [] := by
  have h := (fetchCryptoNews_retry_backoff (fun _ => AttemptOutcome.failure)
    { newsCache := none, now := 0 } 0 rfl).2.1 (fun _ => rfl)
  simpa using h

/-- Claim C7: starting from a cache miss, a first `fetchCryptoNews` call
whose attempt succeeds invokes the provider adapters exactly once and
resolves with the merged sorted list; a second call at any time within the
60-second news TTL of the first (regardless of its own attempt outcomes)
invokes no provider adapter and resolves with the identical cached list. -/
theorem fetchCryptoNews_cache_hit_idempotent (outcomes outcomes2 : Nat → AttemptOutcome)
    (st : NewsFetchState) (ccNews cpNews : List NewsItem) (t2 : Int)
    (hmiss : freshNewsHit st = none)
    (hsucc : outcomes 0 = AttemptOutcome.success ccNews cpNews)
    (httl : t2 - st.now < NEWS_CACHE_DURATION) :
    (fetchCryptoNews outcomes st 0).adapterCalls = 1 ∧
    (fetchCryptoNews outcomes st 0).settled = Except.ok (mergeAndSortNews ccNews cpNews) ∧
    (fetchCryptoNews outcomes2
      { newsCache := (fetchCryptoNews outcomes st 0).final.newsCache, now := t2 }
      0).adapterCalls = 0 ∧
    (fetchCryptoNews outcomes2
      { newsCache := (fetchCryptoNews outcomes st 0).final.newsCache, now := t2 }
      0).settled = (fetchCryptoNews outcomes st 0).settled := by
  have e1 := fetchCryptoNews_success outcomes st 0 ccNews cpNews hmiss hsucc
  have hhit : freshNewsHit
      { newsCache := some (mergeAndSortNews ccNews cpNews, st.now), now := t2 }
      = some (mergeAndSortNews ccNews cpNews) := by
    simp only [freshNewsHit]
    rw [if_pos httl]
  have e2 := fetchCryptoNews_cacheHit outcomes2
    { newsCache := some (mergeAndSortNews ccNews cpNews, st.now), now := t2 } 0
    (mergeAndSortNews ccNews cpNews) hhit
  refine ⟨?_, ?_, ?_, ?_⟩
  · rw [e1]
  · rw [e1]
  · rw [e1]; dsimp only; rw [e2]
  · rw [e1]; dsimp only; rw [e2]

theorem fetchCryptoNews_cache_hit_idempotent_witness :
    (fetchCryptoNews (fun _ => AttemptOutcome.success [ccDupItem] [])
      { newsCache := none, now := 0 } 0).adapterCalls = 1 ∧
    (fetchCryptoNews (fun _ => AttemptOutcome.success [ccDupItem] [])
      { newsCache := none, now := 0 } 0).settled
      = Except.ok (mergeAndSortNews [ccDupItem] []) := by
  have h := fetchCryptoNews_cache_hit_idempotent
    (fun _ => AttemptOutcome.success [ccDupItem] []) (fun _ => AttemptOutcome.failure)
    { newsCache := none, now := 0 } [ccDupItem] [] 30000 rfl rfl (by decide)
  exact ⟨h.1, h.2.1⟩
